import Mathlib

/-!
Verification of the one-rom-site device programming engine.

This file shallowly embeds the core logic of `src/js/prog/programmer.js`
and `src/js/prog/unifiedProgrammer.js` in Lean 4 and settles the frozen
claims about it.

Byte buffers (`ArrayBuffer`/`Uint8Array` in the source) are modelled as
`List Nat` whose entries are byte values; an out-of-range typed-array read
in JavaScript yields `undefined`, which the source's bitwise operators
coerce to 0, so reads are modelled as `List.getD _ _ 0`.  Thrown string
errors are modelled with `Except String`; the error strings are the exact
strings thrown by the source.  All definitions are pure, so the fact that
validation never mutates its input buffer holds by construction.
-/

set_option maxRecDepth 40000

/-- Hex digit rendering used by JavaScript `Number.prototype.toString(16)`
for a natural number: most-significant digit first, lowercase.  `Nat.toDigits`
has exactly this behaviour for base 16. -/
def jsNatToHex (n : Nat) : String :=
  String.mk (Nat.toDigits 16 n)

/-- JavaScript `Number.prototype.toString(16)` on a (possibly negative)
integer: a leading minus sign followed by the hex digits of the magnitude. -/
def jsIntToHex (i : Int) : String :=
  if i < 0 then "-" ++ jsNatToHex i.natAbs else jsNatToHex i.toNat

/-- Result of a JavaScript 32-bit signed reinterpretation (`x | 0` / the
value produced by chained `|` and `<<` operators): reduce mod 2^32 and view
values at or above 2^31 as negative. -/
def jsToInt32 (n : Nat) : Int :=
  if n % 4294967296 < 2147483648 then ((n % 4294967296 : Nat) : Int)
  else ((n % 4294967296 : Nat) : Int) - 4294967296

/-- A `Uint8Array` read `view[i]`: the stored byte, or 0 past the end
(JavaScript gives `undefined` there, which the source's `|`/`<<` coerce
to 0). -/
def readU8 (fileArr : List Nat) (i : Nat) : Nat :=
  fileArr.getD i 0

/-- `infoStructBase` from `validateFirmware`: the fixed offset 0x200 of the
firmware info structure. -/
def infoStructBase : Nat := 0x200

/-- `expectedSignature` from `validateFirmware`: "SDRR" in ASCII. -/
def expectedSignature : List Nat := [0x53, 0x44, 0x52, 0x52]

/-- The `mcuVariantMap` table from `programmer.js`: variant name to
(`line`, `storage`) codes, in source order. -/
def mcuVariantMap : List (String × Nat × Nat) :=
  [("F401RB", 0x0004, 0x01),
   ("F401RC", 0x0004, 0x02),
   ("F401RE", 0x0000, 0x04),
   ("F405RG", 0x0001, 0x06),
   ("F411RC", 0x0002, 0x02),
   ("F411RE", 0x0002, 0x04),
   ("F446RC", 0x0003, 0x02),
   ("F446RE", 0x0003, 0x04),
   ("RP2350", 0x0005, 0x07)]

/-- `mcuVariantMap[mcuVariant]` in the source: look a variant name up in the
static table. -/
def lookupMcuVariant (mcuVariant : String) : Option (Nat × Nat) :=
  (mcuVariantMap.find? (fun e => e.1 == mcuVariant)).map (fun e => e.2)

/-- `getMcuVariantName` from `programmer.js`: reverse lookup of a
(`line`, `storage`) pair; if no table entry matches, report the raw codes in
hex. -/
def getMcuVariantName (line storage : Nat) : String :=
  match mcuVariantMap.find? (fun e => e.2.1 == line && e.2.2 == storage) with
  | some e => e.1
  | none =>
      "Unknown (line=0x" ++ jsNatToHex line ++ " storage=0x" ++
        jsNatToHex storage ++ ")"

/-- The signature check loop of `validateFirmware`: all four bytes at
`infoStructBase` match `expectedSignature`. -/
def sigOk (fileArr : List Nat) : Bool :=
  (List.range expectedSignature.length).all
    (fun i => readU8 fileArr (infoStructBase + i) == expectedSignature.getD i 0)

/-- `mcuLine` in `validateFirmware`: 2-byte little-endian read at
`infoStructBase + 0x1C`. -/
def readLine (fileArr : List Nat) : Nat :=
  readU8 fileArr (infoStructBase + 0x1C) |||
    (readU8 fileArr (infoStructBase + 0x1C + 1) <<< 8)

/-- `mcuStorage` in `validateFirmware`: 2-byte little-endian read at
`infoStructBase + 0x1E`. -/
def readStorage (fileArr : List Nat) : Nat :=
  readU8 fileArr (infoStructBase + 0x1E) |||
    (readU8 fileArr (infoStructBase + 0x1E + 1) <<< 8)

/-- `flashBase` in `validateFirmware`: 0x10000000 for RP2350, else
0x08000000. -/
def flashBaseOf (mcuVariant : String) : Int :=
  if mcuVariant = "RP2350" then 0x10000000 else 0x08000000

/-- `pointer` in `validateFirmware`: 4-byte little-endian read at
`infoStructBase + 0x38`, reinterpreted as a signed 32-bit value (the
source's `|`/`<<` chain produces a signed 32-bit result). -/
def pointerOf (fileArr : List Nat) : Int :=
  jsToInt32 (readU8 fileArr (infoStructBase + 0x38) |||
    (readU8 fileArr (infoStructBase + 0x38 + 1) <<< 8) |||
    (readU8 fileArr (infoStructBase + 0x38 + 2) <<< 16) |||
    (readU8 fileArr (infoStructBase + 0x38 + 3) <<< 24))

/-- `extraInfoOffset` in `validateFirmware`: the extra-info pointer converted
from a flash address into a file offset. -/
def extraInfoOffsetOf (fileArr : List Nat) (mcuVariant : String) : Int :=
  pointerOf fileArr - flashBaseOf mcuVariant

/-- The error thrown when a buffer is too small to hold the signature. -/
def tooSmallMsg : String :=
  "Error: Invalid One ROM .bin file (Firmware file too small - expected \"SDRR\" signature at offset 0x200)"

/-- The error thrown when the signature bytes do not match. -/
def missingSigMsg : String :=
  "Error: Invalid One ROM .bin file (missing \"SDRR\" signature at offset 0x200)"

/-- The error thrown when the selected variant name is not in the table. -/
def unknownVariantMsg : String :=
  "Error: Unknown MCU variant selected"

/-- The error thrown when the firmware identity codes do not match the
selected variant. -/
def wrongVariantMsg (line storage : Nat) (mcuVariant : String) : String :=
  "Error: One ROM firmware is for wrong MCU variant (Firmware is for " ++
    getMcuVariantName line storage ++ ", expected " ++ mcuVariant ++ ")"

/-- The error thrown when the buffer is too small to hold the extra-info
pointer itself. -/
def cantReadPointerMsg : String :=
  "Error: Invalid One ROM .bin file (Firmware file too small - cannot read extra_info pointer)"

/-- The error thrown when the extra-info pointer is out of range
(`BadExtraInfoPointer`). -/
def badPointerMsg (pointer : Int) : String :=
  "Error: Invalid One ROM .bin file (Invalid extra_info pointer in firmware 0x" ++
    jsIntToHex pointer ++ ")"

/-- The error thrown when the USB-support flag is not 1. -/
def usbNotSupportedMsg : String :=
  "Error: One ROM firmware provided does not support USB (Choose a firmware image that supports USB)"

/-- `validateFirmware` from `programmer.js`, check for check: signature
length guard, signature bytes, variant lookup and match, pointer-read length
guard, extra-info offset range, USB-support flag.  `throw` is modelled as
`Except.error` carrying the exact thrown string. -/
def validateFirmware (fileArr : List Nat) (mcuVariant : String) :
    Except String Bool :=
  if fileArr.length < infoStructBase + expectedSignature.length then
    .error tooSmallMsg
  else if sigOk fileArr then
    match lookupMcuVariant mcuVariant with
    | none => .error unknownVariantMsg
    | some expectedMcu =>
      if readLine fileArr ≠ expectedMcu.1 ∨ readStorage fileArr ≠ expectedMcu.2 then
        .error (wrongVariantMsg (readLine fileArr) (readStorage fileArr) mcuVariant)
      else if fileArr.length < infoStructBase + 0x38 + 4 then
        .error cantReadPointerMsg
      else if extraInfoOffsetOf fileArr mcuVariant < 0 ∨
          (fileArr.length : Int) < extraInfoOffsetOf fileArr mcuVariant + 5 then
        .error (badPointerMsg (pointerOf fileArr))
      else if readU8 fileArr ((extraInfoOffsetOf fileArr mcuVariant).toNat + 4) ≠ 1 then
        .error usbNotSupportedMsg
      else
        .ok true
  else
    .error missingSigMsg

/-- C4: every buffer shorter than 0x204 bytes is rejected by
`validateFirmware` with the too-small-for-signature error, whatever the
buffer contents and the selected variant (the length guard runs before the
variant lookup). -/
theorem c4_short_buffer_too_small (fileArr : List Nat) (mcuVariant : String)
    (h : fileArr.length < 0x204) :
    validateFirmware fileArr mcuVariant = .error tooSmallMsg := by
  unfold validateFirmware
  rw [if_pos]
  simpa [infoStructBase, expectedSignature] using h

/-- Witness for C4 at the empty buffer and an arbitrary known variant. -/
theorem c4_short_buffer_too_small_witness :
    ([] : List Nat).length < 0x204 ∧
      validateFirmware [] "F446RC" = .error tooSmallMsg :=
  ⟨by decide, c4_short_buffer_too_small [] "F446RC" (by decide)⟩

/-- C1: a buffer that carries the signature, identity codes matching the
selected (known) variant, an in-range extra-info pointer and a USB-support
flag of 1 passes `validateFirmware` with result `true`.  The embedding is a
pure function of an immutable list, so the buffer cannot be modified. -/
theorem c1_valid_firmware_accepted (fileArr : List Nat) (mcuVariant : String)
    (expectedMcu : Nat × Nat)
    (hlen : 0x23C ≤ fileArr.length)
    (hsig : sigOk fileArr = true)
    (hvar : lookupMcuVariant mcuVariant = some expectedMcu)
    (hline : readLine fileArr = expectedMcu.1)
    (hstor : readStorage fileArr = expectedMcu.2)
    (hoff : 0 ≤ extraInfoOffsetOf fileArr mcuVariant)
    (hbound : extraInfoOffsetOf fileArr mcuVariant + 5 ≤ (fileArr.length : Int))
    (husb : readU8 fileArr ((extraInfoOffsetOf fileArr mcuVariant).toNat + 4) = 1) :
    validateFirmware fileArr mcuVariant = .ok true := by
  have h1 : ¬ fileArr.length < infoStructBase + expectedSignature.length := by
    simp only [infoStructBase, expectedSignature, List.length_cons, List.length_nil]
    omega
  have h2 : ¬ fileArr.length < infoStructBase + 0x38 + 4 := by
    simp only [infoStructBase]; omega
  have h3 : ¬ (extraInfoOffsetOf fileArr mcuVariant < 0 ∨
      (fileArr.length : Int) < extraInfoOffsetOf fileArr mcuVariant + 5) := by
    push_neg
    exact ⟨hoff, hbound⟩
  have h4 : ¬ (readLine fileArr ≠ expectedMcu.1 ∨ readStorage fileArr ≠ expectedMcu.2) := by
    simp [hline, hstor]
  have h5 : ¬ readU8 fileArr ((extraInfoOffsetOf fileArr mcuVariant).toNat + 4) ≠ 1 := by
    simp [husb]
  unfold validateFirmware
  rw [if_neg h1, if_pos hsig, hvar]
  dsimp only
  rw [if_neg h4, if_neg h2, if_neg h3, if_neg h5]

/-- A concrete buffer of length exactly 0x23C that `validateFirmware`
accepts for F446RC: signature "SDRR" at 0x200, line 3 / storage 2 at
0x21C/0x21E, extra-info pointer 0x08000000 at 0x238 (file offset 0), and
USB-support byte 1 at offset 4. -/
def acceptedBuf : List Nat :=
  [0, 0, 0, 0, 1] ++ List.replicate 0x1FB 0 ++ [0x53, 0x44, 0x52, 0x52] ++
    List.replicate 0x18 0 ++ [0x03, 0x00, 0x02, 0x00] ++
    List.replicate 0x18 0 ++ [0x00, 0x00, 0x00, 0x08]

/-- Witness for C1 at `acceptedBuf` and variant F446RC. -/
theorem c1_valid_firmware_accepted_witness :
    0x23C ≤ acceptedBuf.length ∧ validateFirmware acceptedBuf "F446RC" = .ok true :=
  ⟨by decide,
    c1_valid_firmware_accepted acceptedBuf "F446RC" (0x0003, 0x02) (by decide)
      (by decide) (by decide) (by decide) (by decide) (by decide) (by decide)
      (by decide)⟩

/-- C10: `validateFirmware` is total (it is a Lean function, so every branch
returns or errors), out-of-range reads behave as 0 (second conjunct, by the
`Uint8Array` read model), and it can only return `true` on a buffer of at
least 0x23C bytes: the pointer guard requires `0x23C ≤ length` and every
earlier exit is an error. -/
theorem c10_success_requires_full_header (fileArr : List Nat) (mcuVariant : String)
    (h : validateFirmware fileArr mcuVariant = .ok true) :
    0x23C ≤ fileArr.length ∧ ∀ i, fileArr.length ≤ i → readU8 fileArr i = 0 := by
  refine ⟨?_, fun i hi => by simpa [readU8] using List.getD_eq_default fileArr 0 hi⟩
  rcases Nat.lt_or_ge fileArr.length 0x23C with hlt | hge
  · exfalso
    unfold validateFirmware at h
    by_cases h1 : fileArr.length < infoStructBase + expectedSignature.length
    · rw [if_pos h1] at h
      simp at h
    · rw [if_neg h1] at h
      by_cases h2 : sigOk fileArr = true
      · rw [if_pos h2] at h
        cases hv : lookupMcuVariant mcuVariant with
        | none => rw [hv] at h; simp at h
        | some em =>
          rw [hv] at h
          dsimp only at h
          by_cases h3 : readLine fileArr ≠ em.1 ∨ readStorage fileArr ≠ em.2
          · rw [if_pos h3] at h
            simp at h
          · rw [if_neg h3] at h
            rw [if_pos (by simp only [infoStructBase]; omega)] at h
            simp at h
      · rw [if_neg h2] at h
        simp at h
  · exact hge

/-- Witness for C10: `acceptedBuf` is accepted, so the theorem applies; a
read far past its end yields 0. -/
theorem c10_success_requires_full_header_witness :
    0x23C ≤ acceptedBuf.length ∧ readU8 acceptedBuf 100000 = 0 := by
  have h := c10_success_requires_full_header acceptedBuf "F446RC" (by rfl)
  exact ⟨h.1, h.2 100000 (by decide)⟩

/-- C5: a buffer with a correct signature whose (`line`, `storage`) pair is
in no table entry is rejected for every known selected variant with the
wrong-variant error, and the message contains the hexadecimal rendering of
both unmatched codes (via the reverse lookup falling through to the
"Unknown" branch). -/
theorem c5_unknown_pair_reports_hex (fileArr : List Nat) (mcuVariant : String)
    (expectedMcu : Nat × Nat)
    (hlen : 0x204 ≤ fileArr.length)
    (hsig : sigOk fileArr = true)
    (hvar : lookupMcuVariant mcuVariant = some expectedMcu)
    (hpair : mcuVariantMap.find?
        (fun e => e.2.1 == readLine fileArr && e.2.2 == readStorage fileArr) = none) :
    validateFirmware fileArr mcuVariant =
      .error (wrongVariantMsg (readLine fileArr) (readStorage fileArr) mcuVariant) ∧
    (∃ s t, wrongVariantMsg (readLine fileArr) (readStorage fileArr) mcuVariant =
        s ++ jsNatToHex (readLine fileArr) ++ t) ∧
    (∃ s t, wrongVariantMsg (readLine fileArr) (readStorage fileArr) mcuVariant =
        s ++ jsNatToHex (readStorage fileArr) ++ t) := by
  obtain ⟨e, hfind, he2⟩ :
      ∃ e, mcuVariantMap.find? (fun e => e.1 == mcuVariant) = some e ∧
        e.2 = expectedMcu := by
    unfold lookupMcuVariant at hvar
    cases hf : mcuVariantMap.find? (fun e => e.1 == mcuVariant) with
    | none => rw [hf] at hvar; simp at hvar
    | some e => rw [hf] at hvar; simp at hvar; exact ⟨e, rfl, hvar⟩
  have hnq := List.find?_eq_none.mp hpair e (List.mem_of_find?_eq_some hfind)
  have hne : readLine fileArr ≠ expectedMcu.1 ∨ readStorage fileArr ≠ expectedMcu.2 := by
    by_contra hno
    push_neg at hno
    exact hnq (by simp [he2, hno.1.symm, hno.2.symm])
  have hname : getMcuVariantName (readLine fileArr) (readStorage fileArr) =
      "Unknown (line=0x" ++ jsNatToHex (readLine fileArr) ++ " storage=0x" ++
        jsNatToHex (readStorage fileArr) ++ ")" := by
    unfold getMcuVariantName
    rw [hpair]
  refine ⟨?_, ?_, ?_⟩
  · unfold validateFirmware
    rw [if_neg (by simp only [infoStructBase, expectedSignature, List.length_cons,
        List.length_nil]; omega), if_pos hsig, hvar]
    dsimp only
    rw [if_pos hne]
  · refine ⟨"Error: One ROM firmware is for wrong MCU variant (Firmware is for " ++
      "Unknown (line=0x",
      " storage=0x" ++ jsNatToHex (readStorage fileArr) ++ ")" ++ ", expected " ++
        mcuVariant ++ ")", ?_⟩
    simp only [wrongVariantMsg, hname, String.append_assoc]
  · refine ⟨"Error: One ROM firmware is for wrong MCU variant (Firmware is for " ++
      "Unknown (line=0x" ++ jsNatToHex (readLine fileArr) ++ " storage=0x",
      ")" ++ ", expected " ++ mcuVariant ++ ")", ?_⟩
    simp only [wrongVariantMsg, hname, String.append_assoc]

/-- C6: a buffer that passes the signature and variant checks but whose
extra-info pointer converts to a negative file offset, or to an offset with
fewer than 5 readable bytes, is rejected with the bad-extra-info-pointer
error. -/
theorem c6_bad_pointer_rejected (fileArr : List Nat) (mcuVariant : String)
    (expectedMcu : Nat × Nat)
    (hlen : 0x23C ≤ fileArr.length)
    (hsig : sigOk fileArr = true)
    (hvar : lookupMcuVariant mcuVariant = some expectedMcu)
    (hline : readLine fileArr = expectedMcu.1)
    (hstor : readStorage fileArr = expectedMcu.2)
    (hbad : extraInfoOffsetOf fileArr mcuVariant < 0 ∨
      (fileArr.length : Int) < extraInfoOffsetOf fileArr mcuVariant + 5) :
    validateFirmware fileArr mcuVariant = .error (badPointerMsg (pointerOf fileArr)) := by
  unfold validateFirmware
  rw [if_neg (by simp only [infoStructBase, expectedSignature, List.length_cons,
      List.length_nil]; omega), if_pos hsig, hvar]
  dsimp only
  rw [if_neg (by simp [hline, hstor]),
    if_neg (by simp only [infoStructBase]; omega),
    if_pos hbad]

/-- A buffer identical to `acceptedBuf`'s header but with extra-info pointer
0x07000000, which lies below the F446RC flash base 0x08000000. -/
def badPointerBuf : List Nat :=
  List.replicate 0x200 0 ++ [0x53, 0x44, 0x52, 0x52] ++
    List.replicate 0x18 0 ++ [0x03, 0x00, 0x02, 0x00] ++
    List.replicate 0x18 0 ++ [0x00, 0x00, 0x00, 0x07]

/-- Witness for C6 at `badPointerBuf` and variant F446RC (the spec's
below-flash-base scenario). -/
theorem c6_bad_pointer_rejected_witness :
    (extraInfoOffsetOf badPointerBuf "F446RC" < 0 ∨
      (badPointerBuf.length : Int) < extraInfoOffsetOf badPointerBuf "F446RC" + 5) ∧
    validateFirmware badPointerBuf "F446RC" =
      .error (badPointerMsg (pointerOf badPointerBuf)) :=
  ⟨by decide,
    c6_bad_pointer_rejected badPointerBuf "F446RC" (0x0003, 0x02) (by decide)
      (by decide) (by decide) (by decide) (by decide) (by decide)⟩

/-- A buffer of exactly 0x204 bytes with a correct signature: the line and
storage reads fall past the end and behave as 0, and (0, 0) is in no table
entry. -/
def unknownPairBuf : List Nat :=
  List.replicate 0x200 0 ++ [0x53, 0x44, 0x52, 0x52]

/-- `FIRMWARE_SIZE` from `programmer.js`: 48 KiB base-firmware region. -/
def FIRMWARE_SIZE : Nat := 48 * 1024

/-- `MAX_METADATA_LEN` from `programmer.js`: 16 KiB metadata region. -/
def MAX_METADATA_LEN : Nat := 16 * 1024

/-- The buffer produced by a successful `TypedArray.prototype.set`
(`target.set(src, off)`): the bytes of `src` overwrite `target` starting at
`off`. -/
def setBuf (target src : List Nat) (off : Nat) : List Nat :=
  target.take off ++ (src ++ target.drop (off + src.length))

/-- `TypedArray.prototype.set` including its bounds behaviour: it throws a
`RangeError` (modelled as `none`) when the source does not fit in the target
at the given offset. -/
def jsSet (target src : List Nat) (off : Nat) : Option (List Nat) :=
  if off + src.length ≤ target.length then some (setBuf target src off) else none

/-- `CustomImageManager.combineFirmware` from `programmer.js`: allocate
`FIRMWARE_SIZE + MAX_METADATA_LEN + romImages.length` bytes, fill with the
erased-flash value 0xFF, then copy `baseFirmware` at 0, `metadata` at
`FIRMWARE_SIZE` and `romImages` at `FIRMWARE_SIZE + MAX_METADATA_LEN`. -/
def combineFirmware (baseFirmware metadata romImages : List Nat) :
    Option (List Nat) :=
  let totalSize := FIRMWARE_SIZE + MAX_METADATA_LEN + romImages.length
  (jsSet (List.replicate totalSize 0xFF) baseFirmware 0).bind fun c1 =>
    (jsSet c1 metadata FIRMWARE_SIZE).bind fun c2 =>
      jsSet c2 romImages (FIRMWARE_SIZE + MAX_METADATA_LEN)

theorem getD_replicate_ite (n i : Nat) (v d : Nat) :
    (List.replicate n v).getD i d = if i < n then v else d := by
  rw [List.getD_eq_getElem?_getD, List.getElem?_replicate]
  split <;> simp

theorem setBuf_length (target src : List Nat) (off : Nat)
    (h : off + src.length ≤ target.length) :
    (setBuf target src off).length = target.length := by
  simp [setBuf]
  omega

theorem setBuf_getD (target src : List Nat) (off : Nat)
    (h : off + src.length ≤ target.length) (i : Nat) :
    (setBuf target src off).getD i 0 =
      if off ≤ i ∧ i < off + src.length then src.getD (i - off) 0
      else target.getD i 0 := by
  unfold setBuf
  have ht : (target.take off).length = off := by
    simp [List.length_take]
    omega
  rcases Nat.lt_or_ge i off with hi | hi
  · rw [if_neg (by omega), List.getD_append _ _ _ _ (by omega)]
    rw [List.getD_eq_getElem?_getD, List.getD_eq_getElem?_getD,
      List.getElem?_take, if_pos hi]
  · rw [List.getD_append_right _ _ _ _ (by omega), ht]
    rcases Nat.lt_or_ge (i - off) src.length with hj | hj
    · rw [if_pos ⟨hi, by omega⟩, List.getD_append _ _ _ _ hj]
    · rw [if_neg (by omega), List.getD_append_right _ _ _ _ hj]
      rw [List.getD_eq_getElem?_getD, List.getD_eq_getElem?_getD,
        List.getElem?_drop]
      have : off + src.length + (i - off - src.length) = i := by omega
      rw [this]

theorem combineFirmware_getD (base meta payload : List Nat)
    (hb : base.length ≤ FIRMWARE_SIZE + MAX_METADATA_LEN + payload.length)
    (hm : FIRMWARE_SIZE + meta.length ≤ FIRMWARE_SIZE + MAX_METADATA_LEN + payload.length) :
    ∃ r, combineFirmware base meta payload = some r ∧
      r.length = FIRMWARE_SIZE + MAX_METADATA_LEN + payload.length ∧
      ∀ i, r.getD i 0 =
        if FIRMWARE_SIZE + MAX_METADATA_LEN ≤ i ∧
            i < FIRMWARE_SIZE + MAX_METADATA_LEN + payload.length then
          payload.getD (i - (FIRMWARE_SIZE + MAX_METADATA_LEN)) 0
        else if FIRMWARE_SIZE ≤ i ∧ i < FIRMWARE_SIZE + meta.length then
          meta.getD (i - FIRMWARE_SIZE) 0
        else if i < base.length then base.getD i 0
        else if i < FIRMWARE_SIZE + MAX_METADATA_LEN + payload.length then 0xFF
        else 0 := by
  set total := FIRMWARE_SIZE + MAX_METADATA_LEN + payload.length with htotal
  have hrep : (List.replicate total 0xFF).length = total := by
    simp
  have hb0 : 0 + base.length ≤ (List.replicate total 0xFF).length := by
    rw [hrep]; omega
  have l1 : (setBuf (List.replicate total 0xFF) base 0).length = total := by
    rw [setBuf_length _ _ _ hb0, hrep]
  have hm1 : FIRMWARE_SIZE + meta.length ≤
      (setBuf (List.replicate total 0xFF) base 0).length := by
    rw [l1]; omega
  have l2 : (setBuf (setBuf (List.replicate total 0xFF) base 0) meta FIRMWARE_SIZE).length = total := by
    rw [setBuf_length _ _ _ hm1, l1]
  have hp2 : FIRMWARE_SIZE + MAX_METADATA_LEN + payload.length ≤
      (setBuf (setBuf (List.replicate total 0xFF) base 0) meta FIRMWARE_SIZE).length := by
    rw [l2]
  have l3 : (setBuf (setBuf (setBuf (List.replicate total 0xFF) base 0) meta FIRMWARE_SIZE)
      payload (FIRMWARE_SIZE + MAX_METADATA_LEN)).length = total := by
    rw [setBuf_length _ _ _ hp2, l2]
  have e1 : jsSet (List.replicate total 0xFF) base 0 =
      some (setBuf (List.replicate total 0xFF) base 0) := by
    unfold jsSet
    rw [if_pos hb0]
  have e2 : jsSet (setBuf (List.replicate total 0xFF) base 0) meta FIRMWARE_SIZE =
      some (setBuf (setBuf (List.replicate total 0xFF) base 0) meta FIRMWARE_SIZE) := by
    unfold jsSet
    rw [if_pos hm1]
  have e3 : jsSet (setBuf (setBuf (List.replicate total 0xFF) base 0) meta FIRMWARE_SIZE)
      payload (FIRMWARE_SIZE + MAX_METADATA_LEN) =
      some (setBuf (setBuf (setBuf (List.replicate total 0xFF) base 0) meta FIRMWARE_SIZE)
        payload (FIRMWARE_SIZE + MAX_METADATA_LEN)) := by
    unfold jsSet
    rw [if_pos hp2]
  refine ⟨_, ?_, l3, fun i => ?_⟩
  · simp only [combineFirmware, ← htotal]
    rw [e1]
    dsimp only [Option.bind]
    rw [e2]
    dsimp only [Option.bind]
    rw [e3]
  · rw [setBuf_getD _ _ _ hp2 i, setBuf_getD _ _ _ hm1 i, setBuf_getD _ _ _ hb0 i,
      getD_replicate_ite]
    simp only [Nat.zero_le, true_and, Nat.zero_add, Nat.sub_zero]

/-- The layout guarantee of `combineFirmware` for region-sized inputs: the
result exists, has exactly `48KiB + 16KiB + payload.length` bytes, carries
the three inputs at their fixed offsets, and is 0xFF everywhere else. -/
def combineSpec (base meta payload : List Nat) : Prop :=
  ∃ r, combineFirmware base meta payload = some r ∧
    r.length = FIRMWARE_SIZE + MAX_METADATA_LEN + payload.length ∧
    (∀ i, i < base.length → r.getD i 0 = base.getD i 0) ∧
    (∀ i, i < meta.length → r.getD (FIRMWARE_SIZE + i) 0 = meta.getD i 0) ∧
    (∀ i, i < payload.length →
      r.getD (FIRMWARE_SIZE + MAX_METADATA_LEN + i) 0 = payload.getD i 0) ∧
    (∀ i, i < FIRMWARE_SIZE + MAX_METADATA_LEN + payload.length →
      ¬ i < base.length →
      ¬ (FIRMWARE_SIZE ≤ i ∧ i < FIRMWARE_SIZE + meta.length) →
      ¬ (FIRMWARE_SIZE + MAX_METADATA_LEN ≤ i ∧
          i < FIRMWARE_SIZE + MAX_METADATA_LEN + payload.length) →
      r.getD i 0 = 0xFF)

/-- C2 (amended): the claimed layout holds whenever the base fits its 48 KiB
region and the metadata fits its 16 KiB region (as every real call site
guarantees); the unconstrained claim is refuted by
`c2_combine_counterexample`. -/
theorem c2_combine_layout (base meta payload : List Nat)
    (hb : base.length ≤ FIRMWARE_SIZE) (hm : meta.length ≤ MAX_METADATA_LEN) :
    combineSpec base meta payload := by
  have hFS : FIRMWARE_SIZE = 49152 := by norm_num [FIRMWARE_SIZE]
  have hML : MAX_METADATA_LEN = 16384 := by norm_num [MAX_METADATA_LEN]
  obtain ⟨r, hr, hlen, hget⟩ := combineFirmware_getD base meta payload
    (by omega) (by omega)
  refine ⟨r, hr, hlen, fun i hi => ?_, fun i hi => ?_, fun i hi => ?_,
    fun i hi h1 h2 h3 => ?_⟩
  · rw [hget i, if_neg (by omega), if_neg (by omega), if_pos (by omega)]
  · rw [hget (FIRMWARE_SIZE + i), if_neg (by omega), if_pos (by omega)]
    have : FIRMWARE_SIZE + i - FIRMWARE_SIZE = i := by omega
    rw [this]
  · rw [hget (FIRMWARE_SIZE + MAX_METADATA_LEN + i), if_pos (by omega)]
    have : FIRMWARE_SIZE + MAX_METADATA_LEN + i - (FIRMWARE_SIZE + MAX_METADATA_LEN) = i := by
      omega
    rw [this]
  · rw [hget i, if_neg h3, if_neg h2, if_neg h1, if_pos hi]

/-- Witness for C2's amended theorem at the spec's scenario
`combine(emptyBase, [0xAA, 0xBB], emptyPayload)`. -/
theorem c2_combine_layout_witness :
    ([] : List Nat).length ≤ FIRMWARE_SIZE ∧
      ([0xAA, 0xBB] : List Nat).length ≤ MAX_METADATA_LEN ∧
      combineSpec [] [0xAA, 0xBB] [] :=
  ⟨by decide, by decide, c2_combine_layout [] [0xAA, 0xBB] [] (by decide) (by decide)⟩

/-- A base one byte longer than its 48 KiB region: `combineFirmware` still
succeeds, but the metadata copy overwrites the base's final byte. -/
def oversizedBase : List Nat := List.replicate 49153 0

/-- Counterexample to C2 as stated: for `base = oversizedBase`,
`metadata = [0xAA]`, `payload = []`, the result holds 0xAA at offset 49152
even though the base holds 0 there — so "base is copied at offset 0" fails
for inputs exceeding their regions. -/
theorem c2_combine_counterexample :
    ∃ r, combineFirmware oversizedBase [0xAA] [] = some r ∧
      49152 < oversizedBase.length ∧
      r.getD 49152 0 = 0xAA ∧ oversizedBase.getD 49152 0 = 0 := by
  have hFS : FIRMWARE_SIZE = 49152 := by norm_num [FIRMWARE_SIZE]
  have hML : MAX_METADATA_LEN = 16384 := by norm_num [MAX_METADATA_LEN]
  have hbl : oversizedBase.length = 49153 := List.length_replicate 49153 0
  have hb1 : oversizedBase.length ≤
      FIRMWARE_SIZE + MAX_METADATA_LEN + ([] : List Nat).length := by
    rw [hbl, hFS, hML]
    norm_num
  have hm1 : FIRMWARE_SIZE + ([0xAA] : List Nat).length ≤
      FIRMWARE_SIZE + MAX_METADATA_LEN + ([] : List Nat).length := by
    rw [hFS, hML]
    norm_num
  obtain ⟨r, hr, hlen, hget⟩ := combineFirmware_getD oversizedBase [0xAA] [] hb1 hm1
  have hq := hget 49152
  rw [hbl, hFS, hML] at hq
  norm_num at hq
  have hz : oversizedBase.getD 49152 0 = if 49152 < 49153 then 0 else 0 :=
    getD_replicate_ite 49153 49152 0 0
  refine ⟨r, hr, by rw [hbl]; norm_num, ?_, ?_⟩
  · simpa using hq
  · rw [hz]
    norm_num

/-- JavaScript `String.prototype.padStart(2, '0')`: prepend zeros until the
string is at least two characters long. -/
def jsPadStart2 (s : String) : String :=
  if s.length < 2 then String.mk (List.replicate (2 - s.length) '0') ++ s else s

/-- `b.toString(16).padStart(2, '0')` from `downloadAndVerify`. -/
def byteToHex (b : Nat) : String :=
  jsPadStart2 (jsNatToHex b)

/-- `hashArray.map(b => b.toString(16).padStart(2, '0')).join('')` from
`downloadAndVerify`: the lowercase hex rendering of a digest. -/
def bytesToHex (bs : List Nat) : String :=
  String.join (bs.map byteToHex)

/-- The SHA-256 verification step of `PrebuiltManager.downloadAndVerify`
(the part after the fetch), parameterised by the digest function
(`crypto.subtle.digest('SHA-256', ·)` in the source, an opaque byte-level
primitive here).  The JavaScript `if (sha256)` guard skips verification when
the field is absent or the empty string (both falsy). -/
def downloadAndVerify (digest : List Nat → List Nat) (sha256 : Option String)
    (bytes : List Nat) : Except String (List Nat) :=
  match sha256 with
  | none => .ok bytes
  | some expected =>
    if expected = "" then .ok bytes
    else if bytesToHex (digest bytes) ≠ expected then
      .error "SHA256 checksum mismatch - firmware may be corrupted"
    else .ok bytes

theorem digitChar_toLower (m : Nat) : (Nat.digitChar m).toLower = Nat.digitChar m := by
  by_cases h : m < 16
  · interval_cases m <;> decide
  · have hstar : Nat.digitChar m = '*' := by
      unfold Nat.digitChar
      repeat rw [if_neg (by omega)]
    rw [hstar]
    decide

theorem toDigitsCore_toLower (b : Nat) (fuel : Nat) :
    ∀ (n : Nat) (ds : List Char), (∀ c ∈ ds, Char.toLower c = c) →
      ∀ c ∈ Nat.toDigitsCore b fuel n ds, Char.toLower c = c := by
  induction fuel with
  | zero =>
    intro n ds hds c hc
    exact hds c hc
  | succ fuel ih =>
    intro n ds hds c hc
    simp only [Nat.toDigitsCore] at hc
    split at hc
    · rcases List.mem_cons.mp hc with hcd | hcd
      · rw [hcd]
        exact digitChar_toLower _
      · exact hds c hcd
    · refine ih _ _ (fun x hx => ?_) c hc
      rcases List.mem_cons.mp hx with hxd | hxd
      · rw [hxd]
        exact digitChar_toLower _
      · exact hds x hxd

theorem jsNatToHex_toLower (n : Nat) :
    ∀ c ∈ (jsNatToHex n).data, Char.toLower c = c := by
  intro c hc
  exact toDigitsCore_toLower 16 (n + 1) n [] (by simp) c hc

theorem byteToHex_toLower (b : Nat) :
    ∀ c ∈ (byteToHex b).data, Char.toLower c = c := by
  intro c hc
  unfold byteToHex jsPadStart2 at hc
  split at hc
  · rw [String.data_append] at hc
    rcases List.mem_append.mp hc with hpad | hrest
    · have := List.eq_of_mem_replicate hpad
      rw [this]
      decide
    · exact jsNatToHex_toLower b c hrest
  · exact jsNatToHex_toLower b c hc

theorem mem_join_data (l : List String) (acc : String) (c : Char)
    (hc : c ∈ (l.foldl (fun r s => r ++ s) acc).data) :
    c ∈ acc.data ∨ ∃ s ∈ l, c ∈ s.data := by
  induction l generalizing acc with
  | nil => exact Or.inl hc
  | cons hd tl ih =>
    rcases ih (acc ++ hd) hc with hin | ⟨s, hs, hcs⟩
    · rw [String.data_append] at hin
      rcases List.mem_append.mp hin with h | h
      · exact Or.inl h
      · exact Or.inr ⟨hd, List.mem_cons_self hd tl, h⟩
    · exact Or.inr ⟨s, List.mem_cons_of_mem hd hs, hcs⟩

theorem bytesToHex_toLower (bs : List Nat) :
    ∀ c ∈ (bytesToHex bs).data, Char.toLower c = c := by
  intro c hc
  unfold bytesToHex String.join at hc
  rcases mem_join_data (bs.map byteToHex) "" c hc with hin | ⟨s, hs, hcs⟩
  · simp at hin
  · obtain ⟨b, _, rfl⟩ := List.mem_map.mp hs
    exact byteToHex_toLower b c hcs

/-- C3: when the selected artifact carries a (non-empty) expected SHA-256
hash and the computed lowercase hex digest differs from the expected value
normalized to lowercase, `downloadAndVerify` throws the checksum-mismatch
error, so the bytes are never returned. -/
theorem c3_checksum_mismatch_rejected (digest : List Nat → List Nat)
    (expected : String) (bytes : List Nat)
    (hne : expected ≠ "")
    (hmm : (bytesToHex (digest bytes)).data ≠ expected.data.map Char.toLower) :
    downloadAndVerify digest (some expected) bytes =
      .error "SHA256 checksum mismatch - firmware may be corrupted" := by
  simp only [downloadAndVerify]
  rw [if_neg hne, if_pos]
  intro heq
  apply hmm
  rw [heq]
  have hfix : expected.data.map Char.toLower = expected.data := by
    have : ∀ c ∈ expected.data, Char.toLower c = c := by
      intro c hc
      rw [← heq] at hc
      exact bytesToHex_toLower (digest bytes) c hc
    calc expected.data.map Char.toLower = expected.data.map id :=
          List.map_congr_left this
      _ = expected.data := List.map_id expected.data
  rw [hfix]

/-- Witness for C3: a one-byte digest 0x00 renders as "00", which differs
from the expected "ff", so verification fails. -/
theorem c3_checksum_mismatch_rejected_witness :
    ("ff" : String) ≠ "" ∧
      (bytesToHex ((fun _ => [0]) ([] : List Nat))).data ≠
        ("ff" : String).data.map Char.toLower ∧
      downloadAndVerify (fun _ => [0]) (some "ff") [] =
        .error "SHA256 checksum mismatch - firmware may be corrupted" :=
  ⟨by decide, by decide,
    c3_checksum_mismatch_rejected (fun _ => [0]) "ff" [] (by decide) (by decide)⟩

/-- Witness for C5 at `unknownPairBuf` and variant F446RC. -/
theorem c5_unknown_pair_reports_hex_witness :
    0x204 ≤ unknownPairBuf.length ∧
      (validateFirmware unknownPairBuf "F446RC" =
        .error (wrongVariantMsg (readLine unknownPairBuf)
          (readStorage unknownPairBuf) "F446RC") ∧
      (∃ s t, wrongVariantMsg (readLine unknownPairBuf) (readStorage unknownPairBuf)
          "F446RC" = s ++ jsNatToHex (readLine unknownPairBuf) ++ t) ∧
      (∃ s t, wrongVariantMsg (readLine unknownPairBuf) (readStorage unknownPairBuf)
          "F446RC" = s ++ jsNatToHex (readStorage unknownPairBuf) ++ t)) :=
  ⟨by decide,
    c5_unknown_pair_reports_hex unknownPairBuf "F446RC" (0x0003, 0x02)
      (by decide) (by decide) (by decide) (by decide)⟩

/-- The progress value computed on each 100 ms tick by
`_startProgressEstimation`: `Math.min(95, Math.floor((elapsed / totalMs) * 100))`. -/
def progressTickValue (elapsedMs totalMs : ℚ) : ℤ :=
  min 95 ⌊elapsedMs / totalMs * 100⌋

/-- The tick reports of one synthesized-progress run with ideal 100 ms timer
cadence: the k-th tick fires at elapsed time `(k+1)*100` ms. -/
def tickReports (totalMs : ℚ) (n : ℕ) : List ℤ :=
  (List.range n).map (fun k : ℕ => progressTickValue (100 * ((k : ℚ) + 1)) totalMs)

/-- All values reported while the operation is in flight: the initial report
of 1 from `_startProgressEstimation`, then the tick reports. -/
def inFlightReports (totalMs : ℚ) (n : ℕ) : List ℤ :=
  1 :: tickReports totalMs n

/-- A full run: the in-flight reports followed by the forced terminal value
from `_stopProgressEstimation` (100 on success, 0 on failure). -/
def runReports (totalMs : ℚ) (n : ℕ) (success : Bool) : List ℤ :=
  inFlightReports totalMs n ++ [if success then 100 else 0]

/-- C7: with a positive duration estimate, the initial report is 1, every
tick reports `min(95, floor(elapsed / total * 100))`, every in-flight value
lies in [0, 95] (so 100 is never reported before the operation settles), and
the final forced value is 100 on success and 0 on failure. -/
theorem c7_progress_bounds (totalMs : ℚ) (n : ℕ) (success : Bool)
    (hT : 0 < totalMs) :
    (inFlightReports totalMs n).getD 0 0 = 1 ∧
    (∀ k, k < n → (inFlightReports totalMs n).getD (k + 1) 0 =
      min 95 ⌊100 * ((k : ℚ) + 1) / totalMs * 100⌋) ∧
    (∀ v ∈ inFlightReports totalMs n, 0 ≤ v ∧ v ≤ 95) ∧
    (runReports totalMs n success).getLast? = some (if success then 100 else 0) := by
  refine ⟨rfl, fun k hk => ?_, fun v hv => ?_, ?_⟩
  · have hk' : k < (tickReports totalMs n).length := by
      simpa [tickReports] using hk
    simp only [inFlightReports, List.getD_cons_succ]
    rw [List.getD_eq_getElem _ _ hk']
    simp [tickReports, progressTickValue]
  · simp only [inFlightReports, List.mem_cons] at hv
    rcases hv with rfl | hv
    · exact ⟨by norm_num, by norm_num⟩
    · simp only [tickReports, List.mem_map, List.mem_range] at hv
      obtain ⟨k, hk, rfl⟩ := hv
      unfold progressTickValue
      refine ⟨le_min (by norm_num) ?_, min_le_left _ _⟩
      apply Int.le_floor.mpr
      push_cast
      have h1 : (0 : ℚ) ≤ 100 * ((k : ℚ) + 1) := by positivity
      have h2 : (0 : ℚ) ≤ 100 * ((k : ℚ) + 1) / totalMs := div_nonneg h1 hT.le
      nlinarith
  · rw [runReports, List.getLast?_concat]

/-- Witness for C7 at a 1-second estimate with three ticks. -/
theorem c7_progress_bounds_witness :
    (0 : ℚ) < 1000 ∧
      ((inFlightReports 1000 3).getD 0 0 = 1 ∧
      (∀ k, k < 3 → (inFlightReports 1000 3).getD (k + 1) 0 =
        min 95 ⌊100 * ((k : ℚ) + 1) / 1000 * 100⌋) ∧
      (∀ v ∈ inFlightReports 1000 3, 0 ≤ v ∧ v ≤ 95) ∧
      (runReports 1000 3 true).getLast? = some (if true then 100 else 0)) :=
  ⟨by norm_num, c7_progress_bounds 1000 3 true (by norm_num)⟩

/-- C8 (amended): the tick reports alone are monotonically non-decreasing,
and on success the forced final 100 extends the non-decreasing run; the
initial report of 1 is excluded because it can exceed the first tick values
(see `c8_monotone_counterexample`). -/
theorem c8_ticks_monotone (totalMs : ℚ) (n : ℕ) (hT : 0 < totalMs) :
    List.Chain' (fun a b => a ≤ b) (tickReports totalMs n ++ [(100 : ℤ)]) := by
  rw [List.chain'_append]
  refine ⟨?_, List.chain'_singleton _, fun x hx y hy => ?_⟩
  · rw [tickReports, List.chain'_map]
    cases n with
    | zero => simp
    | succ m =>
      rw [List.chain'_range_succ]
      intro k hk
      unfold progressTickValue
      apply min_le_min le_rfl
      apply Int.floor_le_floor
      gcongr
      · exact_mod_cast Nat.le_succ k
  · simp only [List.head?_cons, Option.mem_def, Option.some.injEq] at hy
    subst hy
    have hmem := List.mem_of_getLast?_eq_some hx
    simp only [tickReports, List.mem_map, List.mem_range] at hmem
    obtain ⟨k, hk, rfl⟩ := hmem
    calc progressTickValue (100 * ((k : ℚ) + 1)) totalMs ≤ 95 :=
          min_le_left _ _
      _ ≤ 100 := by norm_num

/-- Witness for C8's amended theorem at a 20-second estimate with five
ticks. -/
theorem c8_ticks_monotone_witness :
    (0 : ℚ) < 20000 ∧
      List.Chain' (fun a b => a ≤ b) (tickReports 20000 5 ++ [(100 : ℤ)]) :=
  ⟨by norm_num, c8_ticks_monotone 20000 5 (by norm_num)⟩

/-- Counterexample to C8 as stated: with a 20-second estimate the initial
report is 1 but the first 100 ms tick computes
`min(95, floor(100 / 20000 * 100)) = 0`, so the reported sequence [1, 0]
is not monotonically non-decreasing. -/
theorem c8_monotone_counterexample :
    ¬ List.Chain' (fun a b => a ≤ b) (inFlightReports 20000 1) := by
  have hval : progressTickValue 100 20000 = 0 := by
    unfold progressTickValue
    have h1 : (100 : ℚ) / 20000 * 100 = 1 / 2 := by norm_num
    rw [h1]
    have h2 : ⌊(1 / 2 : ℚ)⌋ = 0 :=
      Int.floor_eq_iff.mpr ⟨by norm_num, by norm_num⟩
    rw [h2]
    decide
  have hr1 : List.range 1 = [0] := by decide
  have hlist : inFlightReports 20000 1 = [1, progressTickValue 100 20000] := by
    rw [inFlightReports, tickReports, hr1]
    norm_num
  rw [hlist, hval]
  simp [List.chain'_cons]

/-- The two device families handled by `UnifiedProgrammer`
(`this.deviceType` is 'Ice', 'Fire', or null). -/
inductive DeviceType where
  | Ice : DeviceType
  | Fire : DeviceType
deriving DecidableEq

/-- The instance state of `UnifiedProgrammer` relevant to `disconnect`:
the device-type tag and the presence (non-nullness) of the two adapter
handles, the cached USB device, and the progress-timer handle. -/
structure UPState where
  deviceType : Option DeviceType
  dfuDevice : Bool
  picobootDevice : Bool
  cachedUsbDevice : Bool
  progressInterval : Bool
deriving DecidableEq

/-- `_stopProgressEstimation`'s effect on the instance state: clear any
active interval handle (the final percent goes to the UI progress handler,
which is outside the state). -/
def stopProgressEstimation (s : UPState) : UPState :=
  { s with progressInterval := false }

/-- `UnifiedProgrammer.disconnect`: stop the progress timer, then delegate
to whichever adapter matches the device type (nulling its handle), then
clear the device type.  The adapters' own `disconnect` calls are opaque
suspending operations whose only state effect here is the nulled handle;
the function is total, so no call can raise. -/
def disconnect (s : UPState) : UPState :=
  let s1 := stopProgressEstimation s
  let s2 :=
    if s1.deviceType = some DeviceType.Fire then
      if s1.picobootDevice then { s1 with picobootDevice := false } else s1
    else if s1.deviceType = some DeviceType.Ice then
      if s1.dfuDevice then { s1 with dfuDevice := false } else s1
    else s1
  { s2 with deviceType := none }

/-- `UnifiedProgrammer.isConnected`: `this.deviceType !== null`. -/
def isConnected (s : UPState) : Bool :=
  s.deviceType.isSome

/-- C9: `disconnect` always leaves the timer stopped and the device type
cleared (`isConnected` false), and running it again on the resulting state
— i.e. on an already-disconnected instance — changes nothing; being a total
function, it never raises. -/
theorem c9_disconnect_idempotent (s : UPState) :
    (disconnect s).deviceType = none ∧
    (disconnect s).progressInterval = false ∧
    isConnected (disconnect s) = false ∧
    disconnect (disconnect s) = disconnect s := by
  rcases s with ⟨dt, dfu, pico, cached, pint⟩
  rcases dt with _ | d
  · cases dfu <;> cases pico <;> cases cached <;> cases pint <;> decide
  · cases d <;> cases dfu <;> cases pico <;> cases cached <;> cases pint <;> decide
